import Mathlib

/-!
# image-processor: the ingestion handler and the upload-URL handlers

A shallow embedding of `internal/processor/handler.go` (`Handler.Invoke`) and of the
`handler` functions of `cmd/api/main.go` and `cmd/web/main.go`.

The three collaborators of `Handler` (`S3API`, `DynamoDBAPI`, `GeoParser`) are Go
interfaces.  Each is embedded as a record of transition functions over an arbitrary
collaborator state `σ`, so that a port may answer differently on every call.  Every
call made by `Invoke` is recorded as an `Event`; the events of one loop iteration are
kept together in a `Step`, one per notification of the batch, in delivery order.
-/

namespace ImageProcessor

/-! ## Data model -/

/-- A Go `error` value, identified with the text `%v` prints for it. -/
abbrev Err := String

/-- The `Body` of a `GetObjectOutput`: the byte stream of the fetched object. -/
abbrev Body := String

/-- A `float64` coordinate in degrees.  `Invoke` only copies coordinates, it never
computes with them, so the finite values are carried as rationals. -/
abbrev Coord := ℚ

/-- The Go result pair `(value, error)` of a port call. -/
inductive Result (α : Type) where
  | ok (val : α)
  | fail (err : Err)
  deriving DecidableEq, Repr

/-- `events.S3Bucket`, restricted to the field read by `Invoke`. -/
structure S3Bucket where
  Name : String
  deriving DecidableEq, Repr

/-- `events.S3Object`, restricted to the field read by `Invoke`. -/
structure S3Object where
  URLDecodedKey : String
  deriving DecidableEq, Repr

/-- `events.S3Entity`. -/
structure S3Entity where
  Bucket : S3Bucket
  Object : S3Object
  deriving DecidableEq, Repr

/-- `events.S3EventRecord`: one "object created" notification. -/
structure S3EventRecord where
  S3 : S3Entity
  deriving DecidableEq, Repr

/-- `events.S3Event`: the delivered batch. -/
structure S3Event where
  Records : List S3EventRecord
  deriving DecidableEq, Repr

/-- The attribute map built by `attributevalue.MarshalMap` in `Invoke`: the four
attributes `imageId`, `s3Key`, `latitude`, `longitude`. -/
structure Item where
  imageId : String
  s3Key : String
  latitude : Coord
  longitude : Coord
  deriving DecidableEq, Repr

/-! ## Ports -/

/-- The interface `S3API`.  A successful `GetObject` carries the body of its output;
`BodyClose` is the `Close` method of that body, whose error result the `defer`
discards. -/
structure S3API (σ : Type) where
  GetObject : σ → String → String → σ × Result Body
  BodyClose : σ → Body → σ

/-- The interface `DynamoDBAPI`: `PutItem` with the table name and the item of the
`PutItemInput`. -/
structure DynamoDBAPI (σ : Type) where
  PutItem : σ → String → Item → σ × Result Unit

/-- The interface `GeoParser`. -/
structure GeoParser (σ : Type) where
  ExtractLatLong : σ → Body → σ × Result (Coord × Coord)

/-- The two calls `ExifGeoParser` makes into the `goexif` library, over the library's
type `X` of decoded EXIF data: `exif.Decode` and the method `LatLong`. -/
structure ExifLibrary (X : Type) where
  Decode : Body → Result X
  LatLong : X → Result (Coord × Coord)

/-- The method `ExifGeoParser.ExtractLatLong`: decode, and on success return what
`LatLong` returns. -/
def ExifGeoParser.ExtractLatLong {X : Type} (lib : ExifLibrary X) (r : Body) :
    Result (Coord × Coord) :=
  match lib.Decode r with
  | .fail err => .fail err
  | .ok x => lib.LatLong x

/-- The struct `Handler`. -/
structure Handler (σ : Type) where
  S3Client : S3API σ
  DBClient : DynamoDBAPI σ
  GeoParser : GeoParser σ
  TableName : String

/-! ## Observable events -/

/-- One observable action of `Invoke`. -/
inductive Event where
  | getObject (bucket key : String) (res : Result Body)
  | extractLatLong (body : Body) (res : Result (Coord × Coord))
  | putItem (table : String) (item : Item) (res : Result Unit)
  | log (msg : String)
  | close (body : Body)
  deriving DecidableEq, Repr

/-- What one iteration of the `for` loop did: its events in order, and the body whose
`Close` the iteration deferred (`none` when the fetch failed, before the `defer`). -/
structure Step where
  events : List Event
  deferred : Option Body
  deriving DecidableEq, Repr

/-! ## `Handler.Invoke` -/

/-- The body of the `for` loop of `Invoke`, for one record. -/
def iteration {σ : Type} (h : Handler σ) (record : S3EventRecord) (w : σ) : σ × Step :=
  let bucket := record.S3.Bucket.Name
  let key := record.S3.Object.URLDecodedKey
  match h.S3Client.GetObject w bucket key with
  | (w1, .fail err) =>
    (w1, ⟨[.getObject bucket key (.fail err), .log ("S3 Get Error: " ++ err)], none⟩)
  | (w1, .ok body) =>
    match h.GeoParser.ExtractLatLong w1 body with
    | (w2, .fail err) =>
      (w2, ⟨[.getObject bucket key (.ok body), .extractLatLong body (.fail err),
             .log ("Geo Extract Error for " ++ key ++ ": " ++ err)], some body⟩)
    | (w2, .ok (lat, long)) =>
      let item : Item := ⟨key, key, lat, long⟩
      match h.DBClient.PutItem w2 h.TableName item with
      | (w3, .fail err) =>
        (w3, ⟨[.getObject bucket key (.ok body), .extractLatLong body (.ok (lat, long)),
               .putItem h.TableName item (.fail err),
               .log ("DynamoDB Error: " ++ err)], some body⟩)
      | (w3, .ok u) =>
        (w3, ⟨[.getObject bucket key (.ok body), .extractLatLong body (.ok (lat, long)),
               .putItem h.TableName item (.ok u)], some body⟩)

/-- The `for` loop of `Invoke`: the iterations in delivery order, threading the
collaborator state. -/
def loop {σ : Type} (h : Handler σ) : List S3EventRecord → σ → σ × List Step
  | [], w => (w, [])
  | record :: rest, w =>
    let r1 := iteration h record w
    let r2 := loop h rest r1.1
    (r2.1, r1.2 :: r2.2)

/-- The deferred calls pending when the loop ends, in the order Go runs them: last
deferred first. -/
def deferredCalls (steps : List Step) : List Body :=
  (steps.filterMap (fun s => s.deferred)).reverse

/-- Running the deferred `Close` calls. -/
def runDeferred {σ : Type} (h : Handler σ) (bodies : List Body) (w : σ) : σ :=
  bodies.foldl (fun w b => h.S3Client.BodyClose w b) w

/-- The outcome of one call of `Invoke`. -/
structure InvokeResult (σ : Type) where
  world : σ
  steps : List Step
  closes : List Body
  err : Option Err

/-- The method `Handler.Invoke`: the loop, then `return nil`, at which point the
deferred closes run. -/
def Invoke {σ : Type} (h : Handler σ) (s3Event : S3Event) (w : σ) : InvokeResult σ :=
  let r := loop h s3Event.Records w
  let cs := deferredCalls r.2
  ⟨runDeferred h cs r.1, r.2, cs, none⟩

/-- The events of a call of `Invoke` in the order they happened. -/
def InvokeResult.trace {σ : Type} (r : InvokeResult σ) : List Event :=
  (r.steps.map (fun s => s.events)).flatten ++ r.closes.map Event.close

/-! ## Projections of a trace -/

/-- The `PutItem` calls of a trace: table, item and result of each. -/
def putCalls : List Event → List (String × Item × Result Unit)
  | [] => []
  | .putItem t it r :: es => (t, it, r) :: putCalls es
  | _ :: es => putCalls es

/-- The records put, in order. -/
def putItems (es : List Event) : List Item :=
  (putCalls es).map (fun c => c.2.1)

/-- The records whose `PutItem` the store accepted, in order. -/
def persisted : List Event → List Item
  | [] => []
  | .putItem _ it (.ok _) :: es => it :: persisted es
  | _ :: es => persisted es

/-- The `(bucket, key)` pairs requested through `GetObject`, in order. -/
def fetches : List Event → List (String × String)
  | [] => []
  | .getObject b k _ :: es => (b, k) :: fetches es
  | _ :: es => fetches es

/-- The bodies returned by successful `GetObject` calls, in order. -/
def fetchedBodies : List Event → List Body
  | [] => []
  | .getObject _ _ (.ok body) :: es => body :: fetchedBodies es
  | _ :: es => fetchedBodies es

/-- The bodies closed, in order. -/
def closedBodies : List Event → List Body
  | [] => []
  | .close body :: es => body :: closedBodies es
  | _ :: es => closedBodies es

/-- The coordinate pairs returned by successful `ExtractLatLong` calls, in order. -/
def extracted : List Event → List (Coord × Coord)
  | [] => []
  | .extractLatLong _ (.ok p) :: es => p :: extracted es
  | _ :: es => extracted es

/-- The texts formatted by the `log.Printf` calls, in order. -/
def logs : List Event → List String
  | [] => []
  | .log msg :: es => msg :: logs es
  | _ :: es => logs es

/-- Whether the trace holds a failed `GetObject` or a failed `ExtractLatLong`. -/
def fetchOrExtractFailed : List Event → Bool
  | [] => false
  | .getObject _ _ (.fail _) :: _ => true
  | .extractLatLong _ (.fail _) :: _ => true
  | _ :: es => fetchOrExtractFailed es

/-- Whether the trace holds a failed `PutItem`. -/
def putFailed : List Event → Bool
  | [] => false
  | .putItem _ _ (.fail _) :: _ => true
  | _ :: es => putFailed es

/-- The number of fetched bodies that are open when each `GetObject` call of the trace
is made, given that `n` are open at its start. -/
def openAtFetch : List Event → Nat → List Nat
  | [], _ => []
  | .getObject _ _ (.ok _) :: es, n => n :: openAtFetch es (n + 1)
  | .getObject _ _ (.fail _) :: es, n => n :: openAtFetch es n
  | .close _ :: es, n => openAtFetch es (n - 1)
  | _ :: es, n => openAtFetch es n

/-- Whether the first list of characters starts the second. -/
def startsWith : List Char → List Char → Bool
  | [], _ => true
  | _ :: _, [] => false
  | c :: cs, d :: ds => c == d && startsWith cs ds

/-- Whether the first list of characters occurs in the second as a contiguous run. -/
def occursIn (needle : List Char) : List Char → Bool
  | [] => startsWith needle []
  | d :: ds => startsWith needle (d :: ds) || occursIn needle ds

/-- Whether a diagnostic text contains a key. -/
def mentions (msg key : String) : Bool :=
  occursIn key.data msg.data

/-- The valid ranges of the data model: latitude in [-90, 90], longitude in
[-180, 180]. -/
abbrev inRange (lat long : Coord) : Prop :=
  -90 ≤ lat ∧ lat ≤ 90 ∧ -180 ≤ long ∧ long ≤ 180

/-! ## A record store with replace-on-put, and ports that answer by request

The record store and the object store are external collaborators.  The statements about
store contents (C4, C5, and the last part of C2) are made over the environment below:
collaborators that answer by request, and a store keyed by table and `imageId` in which
a put replaces any record under the same key. -/

/-- The contents of a keyed record store: the records of every table. -/
abbrev Store := List (String × Item)

/-- Replace-on-put: any record of the table under the same `imageId` is replaced. -/
def upsert (table : String) (item : Item) (s : Store) : Store :=
  s.filter (fun e => !(e.1 == table && e.2.imageId == item.imageId)) ++ [(table, item)]

/-- The records stored in a table under an `imageId`. -/
def lookup (table : String) (imageId : String) (s : Store) : List Item :=
  (s.filter (fun e => e.1 == table && e.2.imageId == imageId)).map (fun e => e.2)

/-- Collaborators whose answer depends only on the request: the object store answers
by `(bucket, key)`, the parser by the bytes, and the record store accepts or rejects a
put by its table and item (`none` accepts). -/
structure Env where
  fetch : String → String → Result Body
  parse : Body → Result (Coord × Coord)
  reject : String → Item → Option Err

/-- The handler wired to the collaborators of an `Env`, over a `Store`. -/
def Env.handler (E : Env) (table : String) : Handler Store where
  S3Client :=
    { GetObject := fun s bucket key => (s, E.fetch bucket key)
      BodyClose := fun s _ => s }
  DBClient :=
    { PutItem := fun s t item =>
        match E.reject t item with
        | some err => (s, .fail err)
        | none => (upsert t item s, .ok ()) }
  GeoParser := { ExtractLatLong := fun s body => (s, E.parse body) }
  TableName := table

/-- The handler wired to the collaborators of an `Env` over a collaborator state that
records the calls of `Close`: the state is the list of the bodies on which `Close` has
been called, the latest first.  No other call changes it. -/
def Env.closeRecorder (E : Env) (table : String) : Handler (List Body) where
  S3Client :=
    { GetObject := fun s bucket key => (s, E.fetch bucket key)
      BodyClose := fun s body => body :: s }
  DBClient :=
    { PutItem := fun s t item =>
        match E.reject t item with
        | some err => (s, .fail err)
        | none => (s, .ok ()) }
  GeoParser := { ExtractLatLong := fun s body => (s, E.parse body) }
  TableName := table

/-- A notification for `(bucket, key)`. -/
def notification (bucket key : String) : S3EventRecord :=
  ⟨⟨⟨bucket⟩, ⟨key⟩⟩⟩

/-! ## The handlers of `cmd/api` and `cmd/web` -/

/-- The request fields read by the handlers: `req.RequestContext.HTTP`. -/
structure APIGatewayV2HTTPRequestContextHTTPDescription where
  Method : String
  Path : String
  deriving DecidableEq, Repr

/-- The field `req.RequestContext`. -/
structure APIGatewayV2HTTPRequestContext where
  HTTP : APIGatewayV2HTTPRequestContextHTTPDescription
  deriving DecidableEq, Repr

/-- The type `events.APIGatewayV2HTTPRequest`, restricted to the fields the handlers
read. -/
structure APIGatewayV2HTTPRequest where
  RequestContext : APIGatewayV2HTTPRequestContext
  Body : String
  deriving DecidableEq, Repr

/-- The struct `ImagePoint` of `cmd/api`. -/
structure ApiImagePoint where
  ImageID : String
  Latitude : Coord
  Longitude : Coord
  S3Key : String
  deriving DecidableEq, Repr

/-- The struct `ImagePoint` of `cmd/web`, which has no `S3Key`. -/
structure WebImagePoint where
  ImageID : String
  Latitude : Coord
  Longitude : Coord
  deriving DecidableEq, Repr

/-- The value whose JSON encoding (or, for `text`, whose characters) is the body of a
response.  `jsonMap` lists the entries of a `map[string]string` in the key order in
which `json.Marshal` writes them. -/
inductive Payload where
  | text (s : String)
  | jsonMap (entries : List (String × String))
  | apiPoints (points : List ApiImagePoint)
  | webPoints (points : List WebImagePoint)
  deriving DecidableEq, Repr

/-- The type `events.APIGatewayProxyResponse`. -/
structure APIGatewayProxyResponse where
  StatusCode : Int
  Headers : List (String × String)
  Body : Payload
  deriving DecidableEq, Repr

/-- The type `v4.PresignedHTTPRequest`, restricted to the field the handlers read. -/
structure PresignedHTTPRequest where
  URL : String
  deriving DecidableEq, Repr

/-- How a call of a handler ends: it returns its pair `(response, error)`, or the
goroutine panics. -/
inductive Outcome where
  | returned (resp : APIGatewayProxyResponse) (err : Option Err)
  | panicked (msg : String)
  deriving DecidableEq, Repr

/-- The package variables and the library calls of the two `main` packages.
`now` is `time.Now().Unix()`; `decodeFilename` is `body.Filename` after
`json.Unmarshal([]byte(req.Body), &body)`, whose error the handlers drop;
`PresignPutObject` takes the bucket and the key (the expiry is the constant 15 minutes)
and returns the Go pair of a pointer, `none` being nil, and an error; `Scan` returns the
items of the table, read as image records. -/
structure Runtime where
  bucket : String
  tableName : String
  indexHTML : String
  now : Int
  decodeFilename : String → String
  PresignPutObject : String → String → Option PresignedHTTPRequest × Option Err
  Scan : String → Result (List Item)

/-- The text of the runtime error raised by reading a field through a nil pointer. -/
def nilDereference : String :=
  "runtime error: invalid memory address or nil pointer dereference"

namespace Api

/-- The local `headers` of `handler` in `cmd/api`. -/
def headers : List (String × String) :=
  [("Content-Type", "application/json"), ("Access-Control-Allow-Origin", "*"),
   ("Access-Control-Allow-Methods", "GET, POST, OPTIONS")]

/-- The function `jsonResponse` of `cmd/api`. -/
def jsonResponse (status : Int) (body : Payload) (hs : List (String × String)) :
    APIGatewayProxyResponse :=
  ⟨status, hs, body⟩

/-- The function `handler` of `cmd/api/main.go`.  In the upload branch the error of
`PresignPutObject` is dropped and `URL` is read through the returned pointer. -/
def handler (rt : Runtime) (req : APIGatewayV2HTTPRequest) : Outcome :=
  if req.RequestContext.HTTP.Method = "OPTIONS" then
    .returned ⟨200, headers, .text ""⟩ none
  else if req.RequestContext.HTTP.Method ++ " " ++ req.RequestContext.HTTP.Path =
      "POST /upload-url" then
    let filename := rt.decodeFilename req.Body
    let key := toString rt.now ++ "-" ++ filename
    match (rt.PresignPutObject rt.bucket key).1 with
    | none => .panicked nilDereference
    | some presigned =>
      .returned (jsonResponse 200 (.jsonMap [("key", key), ("uploadUrl", presigned.URL)])
        headers) none
  else if req.RequestContext.HTTP.Method ++ " " ++ req.RequestContext.HTTP.Path =
      "GET /images" then
    match rt.Scan rt.tableName with
    | .fail err => .returned (jsonResponse 500 (.jsonMap [("error", err)]) headers) none
    | .ok items =>
      .returned (jsonResponse 200
        (.apiPoints (items.map (fun it => ⟨it.imageId, it.latitude, it.longitude, it.s3Key⟩)))
        headers) none
  else
    .returned (jsonResponse 404 (.jsonMap [("error", "Not Found")]) headers) none

end Api

namespace Web

/-- The function `jsonResponse` of `cmd/web`. -/
def jsonResponse (status : Int) (body : Payload) : APIGatewayProxyResponse :=
  ⟨status, [("Content-Type", "application/json")], body⟩

/-- The function `handler` of `cmd/web/main.go`.  In the upload branch the error of
`PresignPutObject` is dropped and `URL` is read through the returned pointer. -/
def handler (rt : Runtime) (req : APIGatewayV2HTTPRequest) : Outcome :=
  let method := req.RequestContext.HTTP.Method
  let path := req.RequestContext.HTTP.Path
  if method = "GET" ∧ (path = "/" ∨ path = "") then
    .returned ⟨200, [("Content-Type", "text/html")], .text rt.indexHTML⟩ none
  else if method = "GET" ∧ path = "/points" then
    match rt.Scan rt.tableName with
    | .fail err => .returned (jsonResponse 500 (.jsonMap [("error", err)])) none
    | .ok items =>
      .returned (jsonResponse 200
        (.webPoints (items.map (fun it => ⟨it.imageId, it.latitude, it.longitude⟩)))) none
  else if method = "POST" ∧ path = "/upload-url" then
    let filename := rt.decodeFilename req.Body
    let key := toString rt.now ++ "-" ++ filename
    match (rt.PresignPutObject rt.bucket key).1 with
    | none => .panicked nilDereference
    | some presignedReq =>
      .returned (jsonResponse 200
        (.jsonMap [("key", key), ("uploadUrl", presignedReq.URL)])) none
  else
    .returned (jsonResponse 404 (.jsonMap [("error", "Not Found")])) none

end Web

/-! ## Test doubles and sample inputs -/

/-- The doubles of `handler_test.go`: `MockS3` returns a dummy body for every request,
`MockParser` returns fixed coordinates, `MockDynamo` accepts every put. -/
def testEnv : Env where
  fetch := fun _ _ => .ok "dummy image bytes"
  parse := fun _ => .ok (mkRat 50891 1250, mkRat (-37003) 500)
  reject := fun _ _ => none

/-- The event of `TestHandler_Invoke`. -/
def testEvent : S3Event :=
  ⟨[notification "test-bucket" "photo.jpg"]⟩

/-- An environment in which `missing.jpg` cannot be fetched, the bytes of `plain.png`
carry no geotag, and the store rejects the record of `locked.jpg`. -/
def sampleEnv : Env where
  fetch := fun _ key =>
    if key = "missing.jpg" then .fail "NoSuchKey" else .ok ("bytes of " ++ key)
  parse := fun body =>
    if body = "bytes of plain.png" then .fail "exif: failed to find exif intro marker"
    else .ok (40, -74)
  reject := fun _ item =>
    if item.imageId = "locked.jpg" then some "ProvisionedThroughputExceeded" else none

/-- A batch over `sampleEnv` with one notification for each exit of the loop body. -/
def sampleEvent : S3Event :=
  ⟨[notification "photos" "a.jpg", notification "photos" "plain.png",
    notification "photos" "missing.jpg", notification "photos" "locked.jpg",
    notification "photos" "c.jpg"]⟩

/-- A parser double returning a pair outside both ranges, as `MockParser` can. -/
def offRangeEnv : Env where
  fetch := fun _ _ => .ok "dummy image bytes"
  parse := fun _ => .ok (1000, 500)
  reject := fun _ _ => none
/-- A runtime whose presign call fails, as it does when no credentials can be
retrieved: the SDK returns a nil request and the error. -/
def failingPresignRuntime : Runtime where
  bucket := "photos"
  tableName := "Images"
  indexHTML := "<html></html>"
  now := 1700000000
  decodeFilename := fun body => if body = "" then "" else "trip.jpg"
  PresignPutObject := fun _ _ => (none, some "failed to retrieve credentials")
  Scan := fun _ => .ok []

/-- A `POST /upload-url` request. -/
def uploadRequest (body : String) : APIGatewayV2HTTPRequest :=
  ⟨⟨⟨"POST", "/upload-url"⟩⟩, body⟩

/-- The body `\x7b"filename":"trip.jpg"\x7d` of an upload request. -/
def tripBody : String :=
  "\x7b\"filename\":\"trip.jpg\"\x7d"

/-! ## Lemmas on the trace projections -/

theorem putCalls_append (xs ys : List Event) :
    putCalls (xs ++ ys) = putCalls xs ++ putCalls ys := by
  induction xs with
  | nil => rfl
  | cons e es ih => cases e <;> simp [putCalls, ih]

theorem persisted_append (xs ys : List Event) :
    persisted (xs ++ ys) = persisted xs ++ persisted ys := by
  induction xs with
  | nil => rfl
  | cons e es ih =>
    cases e with
    | putItem t it r => cases r <;> simp [persisted, ih]
    | _ => simp [persisted, ih]

theorem fetchedBodies_append (xs ys : List Event) :
    fetchedBodies (xs ++ ys) = fetchedBodies xs ++ fetchedBodies ys := by
  induction xs with
  | nil => rfl
  | cons e es ih =>
    cases e with
    | getObject b k r => cases r <;> simp [fetchedBodies, ih]
    | _ => simp [fetchedBodies, ih]

theorem closedBodies_append (xs ys : List Event) :
    closedBodies (xs ++ ys) = closedBodies xs ++ closedBodies ys := by
  induction xs with
  | nil => rfl
  | cons e es ih => cases e <;> simp [closedBodies, ih]

theorem extracted_append (xs ys : List Event) :
    extracted (xs ++ ys) = extracted xs ++ extracted ys := by
  induction xs with
  | nil => rfl
  | cons e es ih =>
    cases e with
    | extractLatLong b r => cases r <;> simp [extracted, ih]
    | _ => simp [extracted, ih]

theorem putCalls_closes (bs : List Body) : putCalls (bs.map Event.close) = [] := by
  induction bs with
  | nil => rfl
  | cons b bs ih => simpa [putCalls] using ih

theorem persisted_closes (bs : List Body) : persisted (bs.map Event.close) = [] := by
  induction bs with
  | nil => rfl
  | cons b bs ih => simpa [persisted] using ih

theorem fetchedBodies_closes (bs : List Body) : fetchedBodies (bs.map Event.close) = [] := by
  induction bs with
  | nil => rfl
  | cons b bs ih => simpa [fetchedBodies] using ih

theorem extracted_closes (bs : List Body) : extracted (bs.map Event.close) = [] := by
  induction bs with
  | nil => rfl
  | cons b bs ih => simpa [extracted] using ih

theorem closedBodies_closes (bs : List Body) : closedBodies (bs.map Event.close) = bs := by
  induction bs with
  | nil => rfl
  | cons b bs ih => simpa [closedBodies] using ih

/-! ## Lemmas on one iteration and on the loop -/

/-- The four exits of the loop body: fetch failure, extraction failure, store failure,
success. -/
theorem iteration_shape {σ : Type} (h : Handler σ) (r : S3EventRecord) (w : σ) :
    (∃ e, (iteration h r w).2 =
        ⟨[.getObject r.S3.Bucket.Name r.S3.Object.URLDecodedKey (.fail e),
          .log ("S3 Get Error: " ++ e)], none⟩) ∨
    (∃ body e, (iteration h r w).2 =
        ⟨[.getObject r.S3.Bucket.Name r.S3.Object.URLDecodedKey (.ok body),
          .extractLatLong body (.fail e),
          .log ("Geo Extract Error for " ++ r.S3.Object.URLDecodedKey ++ ": " ++ e)],
         some body⟩) ∨
    (∃ body lat long e, (iteration h r w).2 =
        ⟨[.getObject r.S3.Bucket.Name r.S3.Object.URLDecodedKey (.ok body),
          .extractLatLong body (.ok (lat, long)),
          .putItem h.TableName
            ⟨r.S3.Object.URLDecodedKey, r.S3.Object.URLDecodedKey, lat, long⟩ (.fail e),
          .log ("DynamoDB Error: " ++ e)], some body⟩) ∨
    (∃ body lat long, (iteration h r w).2 =
        ⟨[.getObject r.S3.Bucket.Name r.S3.Object.URLDecodedKey (.ok body),
          .extractLatLong body (.ok (lat, long)),
          .putItem h.TableName
            ⟨r.S3.Object.URLDecodedKey, r.S3.Object.URLDecodedKey, lat, long⟩ (.ok ())],
         some body⟩) := by
  simp only [iteration]
  split
  · exact Or.inl ⟨_, rfl⟩
  · split
    · exact Or.inr (Or.inl ⟨_, _, rfl⟩)
    · split
      · exact Or.inr (Or.inr (Or.inl ⟨_, _, _, _, rfl⟩))
      · exact Or.inr (Or.inr (Or.inr ⟨_, _, _, rfl⟩))

theorem loop_length {σ : Type} (h : Handler σ) (rs : List S3EventRecord) (w : σ) :
    (loop h rs w).2.length = rs.length := by
  induction rs generalizing w with
  | nil => rfl
  | cons r rs ih => simp [loop, ih]

/-- The step at position `i` is the loop body run on the record at position `i`. -/
theorem loop_step_at {σ : Type} (h : Handler σ) (rs : List S3EventRecord) (w : σ)
    (i : Nat) (hi : i < rs.length) :
    ∃ w1, (loop h rs w).2[i]? = some (iteration h (rs.get ⟨i, hi⟩) w1).2 := by
  induction rs generalizing w i with
  | nil => exact absurd hi (Nat.not_lt_zero _)
  | cons r rs ih =>
    cases i with
    | zero => exact ⟨w, by simp [loop]⟩
    | succ j =>
      obtain ⟨w1, hw1⟩ := ih (iteration h r w).1 j (Nat.lt_of_succ_lt_succ hi)
      exact ⟨w1, by simpa [loop] using hw1⟩

theorem loop_step_mem {σ : Type} (h : Handler σ) (rs : List S3EventRecord) (w : σ)
    (st : Step) (hst : st ∈ (loop h rs w).2) :
    ∃ r w1, r ∈ rs ∧ st = (iteration h r w1).2 := by
  induction rs generalizing w with
  | nil => simp [loop] at hst
  | cons r rs ih =>
    simp only [loop, List.mem_cons] at hst
    rcases hst with hst | hst
    · exact ⟨r, w, List.mem_cons_self _ _, hst⟩
    · obtain ⟨r1, w1, hr1, h1⟩ := ih _ hst
      exact ⟨r1, w1, List.mem_cons_of_mem _ hr1, h1⟩

theorem loop_append {σ : Type} (h : Handler σ) (a b : List S3EventRecord) (w : σ) :
    loop h (a ++ b) w =
      ((loop h b (loop h a w).1).1, (loop h a w).2 ++ (loop h b (loop h a w).1).2) := by
  induction a generalizing w with
  | nil => simp [loop]
  | cons r rs ih => simp [loop, ih]

/-- No iteration closes a body, and the body it defers is the one it fetched. -/
theorem iteration_bodies {σ : Type} (h : Handler σ) (r : S3EventRecord) (w : σ) :
    closedBodies (iteration h r w).2.events = [] ∧
    fetchedBodies (iteration h r w).2.events = (iteration h r w).2.deferred.toList := by
  rcases iteration_shape h r w with
    ⟨e, he⟩ | ⟨b, e, he⟩ | ⟨b, la, lo, e, he⟩ | ⟨b, la, lo, he⟩ <;>
  simp [he, closedBodies, fetchedBodies]

/-- Every successful extraction of an iteration is followed by a put of its pair. -/
theorem iteration_extracted {σ : Type} (h : Handler σ) (r : S3EventRecord) (w : σ) :
    (putItems (iteration h r w).2.events).map (fun it => (it.latitude, it.longitude)) =
      extracted (iteration h r w).2.events := by
  rcases iteration_shape h r w with
    ⟨e, he⟩ | ⟨b, e, he⟩ | ⟨b, la, lo, e, he⟩ | ⟨b, la, lo, he⟩ <;>
  simp [he, putItems, putCalls, extracted]

theorem flatten_fetchedBodies (steps : List Step)
    (hs : ∀ st ∈ steps, closedBodies st.events = [] ∧
      fetchedBodies st.events = st.deferred.toList) :
    fetchedBodies (steps.map (fun s => s.events)).flatten =
        steps.filterMap (fun s => s.deferred) ∧
    closedBodies (steps.map (fun s => s.events)).flatten = [] := by
  induction steps with
  | nil => exact ⟨rfl, rfl⟩
  | cons st rest ih =>
    have h1 := hs st (List.mem_cons_self _ _)
    have h2 := ih (fun x hx => hs x (List.mem_cons_of_mem _ hx))
    have h3 : (List.map (fun s => s.events) (st :: rest)).flatten =
        st.events ++ (rest.map (fun s => s.events)).flatten := by simp
    rw [h3, fetchedBodies_append, closedBodies_append, h1.1, h1.2, h2.1, h2.2]
    refine ⟨?_, rfl⟩
    cases hd : st.deferred <;> simp [List.filterMap_cons, hd]

theorem flatten_persisted (steps : List Step) :
    persisted (steps.map (fun s => s.events)).flatten =
      (steps.map (fun s => persisted s.events)).flatten := by
  induction steps with
  | nil => rfl
  | cons st rest ih =>
    have h3 : (List.map (fun s => s.events) (st :: rest)).flatten =
        st.events ++ (rest.map (fun s => s.events)).flatten := by simp
    rw [h3, persisted_append, ih]; simp

theorem trace_persisted {σ : Type} (r : InvokeResult σ) :
    persisted r.trace = (r.steps.map (fun s => persisted s.events)).flatten := by
  simp [InvokeResult.trace, persisted_append, persisted_closes, flatten_persisted]

theorem flatten_putCalls (steps : List Step) :
    putCalls (steps.map (fun s => s.events)).flatten =
      (steps.map (fun s => putCalls s.events)).flatten := by
  induction steps with
  | nil => rfl
  | cons st rest ih =>
    have h3 : (List.map (fun s => s.events) (st :: rest)).flatten =
        st.events ++ (rest.map (fun s => s.events)).flatten := by simp
    rw [h3, putCalls_append, ih]; simp

/-- The `PutItem` calls of a trace are those of its steps, in order. -/
theorem trace_putCalls {σ : Type} (r : InvokeResult σ) :
    putCalls r.trace = (r.steps.map (fun s => putCalls s.events)).flatten := by
  simp [InvokeResult.trace, putCalls_append, putCalls_closes, flatten_putCalls]

/-- The diagnostics of one iteration: one text on each failing exit, none on success.
Only the text of the extraction failure holds the key. -/
theorem iteration_logs {σ : Type} (h : Handler σ) (r : S3EventRecord) (w : σ) :
    (∃ e, fetchOrExtractFailed (iteration h r w).2.events = true ∧
      logs (iteration h r w).2.events = ["S3 Get Error: " ++ e]) ∨
    (∃ e, fetchOrExtractFailed (iteration h r w).2.events = true ∧
      logs (iteration h r w).2.events =
        ["Geo Extract Error for " ++ r.S3.Object.URLDecodedKey ++ ": " ++ e]) ∨
    (∃ e, putFailed (iteration h r w).2.events = true ∧
      logs (iteration h r w).2.events = ["DynamoDB Error: " ++ e]) ∨
    (fetchOrExtractFailed (iteration h r w).2.events = false ∧
      putFailed (iteration h r w).2.events = false ∧
      logs (iteration h r w).2.events = []) := by
  rcases iteration_shape h r w with
    ⟨e, he⟩ | ⟨b, e, he⟩ | ⟨b, la, lo, e, he⟩ | ⟨b, la, lo, he⟩
  · exact Or.inl ⟨e, by simp [he, fetchOrExtractFailed, logs]⟩
  · exact Or.inr (Or.inl ⟨e, by simp [he, fetchOrExtractFailed, logs]⟩)
  · exact Or.inr (Or.inr (Or.inl ⟨e, by simp [he, putFailed, logs]⟩))
  · exact Or.inr (Or.inr (Or.inr (by simp [he, fetchOrExtractFailed, putFailed, logs])))

/-- No body is closed while the loop runs: the trace is the events of the loop, none of
them a close, followed by the deferred closes. -/
theorem invoke_closes_after_loop {σ : Type} (h : Handler σ) (ev : S3Event) (w : σ) :
    (Invoke h ev w).trace =
      ((Invoke h ev w).steps.map (fun s => s.events)).flatten ++
        (Invoke h ev w).closes.map Event.close ∧
    closedBodies ((Invoke h ev w).steps.map (fun s => s.events)).flatten = [] := by
  refine ⟨rfl, ?_⟩
  refine (flatten_fetchedBodies (loop h ev.Records w).2 ?_).2
  intro st hst
  obtain ⟨r, w1, _, rfl⟩ := loop_step_mem h ev.Records w st hst
  exact iteration_bodies h r w1

/-- The parser of the repository adds no check of its own: when the decoding succeeds,
its result is the result of `LatLong`. -/
theorem exifGeoParser_returns_latLong {X : Type} (lib : ExifLibrary X) (r : Body) (x : X)
    (hx : lib.Decode r = .ok x) :
    ExifGeoParser.ExtractLatLong lib r = lib.LatLong x := by
  simp [ExifGeoParser.ExtractLatLong, hx]

/-! ## Lemmas on the handler of an `Env` -/

theorem env_runDeferred (E : Env) (table : String) (bodies : List Body) (s : Store) :
    runDeferred (E.handler table) bodies s = s := by
  induction bodies with
  | nil => rfl
  | cons b bs ih =>
    have h1 : runDeferred (E.handler table) (b :: bs) s =
        runDeferred (E.handler table) bs s := rfl
    rw [h1, ih]

/-- One iteration changes the store by the records it persisted, and by nothing else. -/
theorem env_iteration_world (E : Env) (table : String) (r : S3EventRecord) (s : Store) :
    (iteration (E.handler table) r s).1 =
      (persisted (iteration (E.handler table) r s).2.events).foldl
        (fun acc it => upsert table it acc) s := by
  cases hf : E.fetch r.S3.Bucket.Name r.S3.Object.URLDecodedKey with
  | fail e => simp [iteration, Env.handler, hf, persisted]
  | ok body =>
    cases hp : E.parse body with
    | fail e => simp [iteration, Env.handler, hf, hp, persisted]
    | ok p =>
      obtain ⟨lat, long⟩ := p
      cases hr : E.reject table ⟨r.S3.Object.URLDecodedKey, r.S3.Object.URLDecodedKey,
          lat, long⟩ with
      | some e => simp [iteration, Env.handler, hf, hp, hr, persisted]
      | none => simp [iteration, Env.handler, hf, hp, hr, persisted]

theorem env_loop_world (E : Env) (table : String) (rs : List S3EventRecord) (s : Store) :
    (loop (E.handler table) rs s).1 =
      (persisted ((loop (E.handler table) rs s).2.map (fun st => st.events)).flatten).foldl
        (fun acc it => upsert table it acc) s := by
  induction rs generalizing s with
  | nil => rfl
  | cons r rs ih =>
    have h3 : (List.map (fun st => st.events) (loop (E.handler table) (r :: rs) s).2).flatten =
        (iteration (E.handler table) r s).2.events ++
          ((loop (E.handler table) rs (iteration (E.handler table) r s).1).2.map
            (fun st => st.events)).flatten := by simp [loop]
    rw [h3, persisted_append, List.foldl_append, ← env_iteration_world]
    simpa [loop] using ih (iteration (E.handler table) r s).1

/-- The store after `Invoke` is the store before it, with the persisted records of the
trace put in order. -/
theorem env_invoke_world (E : Env) (table : String) (ev : S3Event) (s : Store) :
    (Invoke (E.handler table) ev s).world =
      (persisted (Invoke (E.handler table) ev s).trace).foldl
        (fun acc it => upsert table it acc) s := by
  simp only [Invoke, InvokeResult.trace, env_runDeferred, persisted_append, persisted_closes,
    List.append_nil]
  exact env_loop_world E table ev.Records s

/-! ## C1, C2, C3: what `Invoke` puts, what it skips, what it returns -/

/-- C1: for every batch and every notification of it (the step at position `i`) whose
`GetObject` succeeded and whose `ExtractLatLong` succeeded with `(lat, long)`, the
notification issues exactly one `PutItem`, addressed to `TableName`, whose record has
`imageId` and `s3Key` equal to the notification's URL-decoded key and carries `lat` and
`long`; when the store accepts the put, that record is the one record persisted for the
notification. -/
theorem invoke_puts_exactly_one_record {σ : Type} (h : Handler σ) (s3Event : S3Event)
    (w : σ) (i : Nat) (hi : i < s3Event.Records.length) (st : Step)
    (hst : (Invoke h s3Event w).steps[i]? = some st)
    (body : Body) (lat long : Coord)
    (hget : Event.getObject (s3Event.Records.get ⟨i, hi⟩).S3.Bucket.Name
        (s3Event.Records.get ⟨i, hi⟩).S3.Object.URLDecodedKey (.ok body) ∈ st.events)
    (hext : Event.extractLatLong body (.ok (lat, long)) ∈ st.events) :
    ∃ res : Result Unit,
      putCalls st.events =
        [(h.TableName,
          ⟨(s3Event.Records.get ⟨i, hi⟩).S3.Object.URLDecodedKey,
           (s3Event.Records.get ⟨i, hi⟩).S3.Object.URLDecodedKey, lat, long⟩, res)] ∧
      (res = .ok () → persisted st.events =
        [⟨(s3Event.Records.get ⟨i, hi⟩).S3.Object.URLDecodedKey,
          (s3Event.Records.get ⟨i, hi⟩).S3.Object.URLDecodedKey, lat, long⟩]) := by
  obtain ⟨w1, hw1⟩ := loop_step_at h s3Event.Records w i hi
  have hst1 : (loop h s3Event.Records w).2[i]? = some st := hst
  rw [hw1] at hst1
  have hst2 := Option.some.inj hst1
  rcases iteration_shape h (s3Event.Records.get ⟨i, hi⟩) w1 with
    ⟨e, he⟩ | ⟨b, e, he⟩ | ⟨b, la, lo, e, he⟩ | ⟨b, la, lo, he⟩
  · rw [he] at hst2; subst hst2; simp at hext
  · rw [he] at hst2; subst hst2; simp at hext
  · rw [he] at hst2; subst hst2
    simp at hext
    obtain ⟨_, h1, h2⟩ := hext
    subst h1 h2
    exact ⟨.fail e, by simp [putCalls], by intro hres; cases hres⟩
  · rw [he] at hst2; subst hst2
    simp at hext
    obtain ⟨_, h1, h2⟩ := hext
    subst h1 h2
    exact ⟨.ok (), by simp [putCalls], by intro _; simp [persisted]⟩

/-- C1 at the event of `TestHandler_Invoke`: one put to `TestTable` of the record of
`photo.jpg` with the coordinates of the parser. -/
theorem invoke_puts_exactly_one_record_witness :
    ∃ res : Result Unit,
      putCalls
          [Event.getObject "test-bucket" "photo.jpg" (.ok "dummy image bytes"),
           Event.extractLatLong "dummy image bytes"
             (.ok (mkRat 50891 1250, mkRat (-37003) 500)),
           Event.putItem "TestTable"
             ⟨"photo.jpg", "photo.jpg", mkRat 50891 1250, mkRat (-37003) 500⟩ (.ok ())] =
        [("TestTable",
          ⟨"photo.jpg", "photo.jpg", mkRat 50891 1250, mkRat (-37003) 500⟩, res)] ∧
      (res = .ok () →
        persisted
          [Event.getObject "test-bucket" "photo.jpg" (.ok "dummy image bytes"),
           Event.extractLatLong "dummy image bytes"
             (.ok (mkRat 50891 1250, mkRat (-37003) 500)),
           Event.putItem "TestTable"
             ⟨"photo.jpg", "photo.jpg", mkRat 50891 1250, mkRat (-37003) 500⟩ (.ok ())] =
        [⟨"photo.jpg", "photo.jpg", mkRat 50891 1250, mkRat (-37003) 500⟩]) :=
  invoke_puts_exactly_one_record (testEnv.handler "TestTable") testEvent [] 0
    (by decide)
    ⟨[Event.getObject "test-bucket" "photo.jpg" (.ok "dummy image bytes"),
      Event.extractLatLong "dummy image bytes"
        (.ok (mkRat 50891 1250, mkRat (-37003) 500)),
      Event.putItem "TestTable"
        ⟨"photo.jpg", "photo.jpg", mkRat 50891 1250, mkRat (-37003) 500⟩ (.ok ())],
     some "dummy image bytes"⟩
    (by decide) "dummy image bytes" (mkRat 50891 1250) (mkRat (-37003) 500)
    (by decide) (by decide)

/-- C2: in every batch, a notification whose `GetObject` or `ExtractLatLong` failed
issues no `PutItem` at all, and one whose `PutItem` failed persists no record; there is
one step per notification of the batch, the step at position `i` being the whole loop
body run on the notification at position `i`, which requests exactly that notification's
`(bucket, key)`: no failure ends the loop early.  Over a record store the contents after
`Invoke` are the contents before it with the persisted records put, so a skipped
notification writes nothing to the store. -/
theorem invoke_skips_failures_and_continues {σ : Type} (h : Handler σ)
    (s3Event : S3Event) (w : σ) :
    (∀ st ∈ (Invoke h s3Event w).steps,
        fetchOrExtractFailed st.events = true → putCalls st.events = []) ∧
    (∀ st ∈ (Invoke h s3Event w).steps,
        putFailed st.events = true → persisted st.events = []) ∧
    (Invoke h s3Event w).steps.length = s3Event.Records.length ∧
    (∀ (i : Nat) (hi : i < s3Event.Records.length), ∃ w1,
        (Invoke h s3Event w).steps[i]? =
          some (iteration h (s3Event.Records.get ⟨i, hi⟩) w1).2 ∧
        fetches (iteration h (s3Event.Records.get ⟨i, hi⟩) w1).2.events =
          [((s3Event.Records.get ⟨i, hi⟩).S3.Bucket.Name,
            (s3Event.Records.get ⟨i, hi⟩).S3.Object.URLDecodedKey)]) ∧
    persisted (Invoke h s3Event w).trace =
      ((Invoke h s3Event w).steps.map (fun st => persisted st.events)).flatten ∧
    (∀ (E : Env) (table : String) (s : Store),
        (Invoke (E.handler table) s3Event s).world =
          (persisted (Invoke (E.handler table) s3Event s).trace).foldl
            (fun acc it => upsert table it acc) s) := by
  refine ⟨?_, ?_, loop_length h s3Event.Records w, ?_, trace_persisted _, ?_⟩
  · intro st hst hfail
    obtain ⟨r, w1, _, rfl⟩ := loop_step_mem h s3Event.Records w st hst
    rcases iteration_shape h r w1 with
      ⟨e, he⟩ | ⟨b, e, he⟩ | ⟨b, la, lo, e, he⟩ | ⟨b, la, lo, he⟩
    · simp [he, putCalls]
    · simp [he, putCalls]
    · simp [he, fetchOrExtractFailed] at hfail
    · simp [he, fetchOrExtractFailed] at hfail
  · intro st hst hfail
    obtain ⟨r, w1, _, rfl⟩ := loop_step_mem h s3Event.Records w st hst
    rcases iteration_shape h r w1 with
      ⟨e, he⟩ | ⟨b, e, he⟩ | ⟨b, la, lo, e, he⟩ | ⟨b, la, lo, he⟩
    · simp [he, persisted]
    · simp [he, persisted]
    · simp [he, persisted]
    · simp [he, putFailed] at hfail
  · intro i hi
    obtain ⟨w1, hw1⟩ := loop_step_at h s3Event.Records w i hi
    refine ⟨w1, hw1, ?_⟩
    rcases iteration_shape h (s3Event.Records.get ⟨i, hi⟩) w1 with
      ⟨e, he⟩ | ⟨b, e, he⟩ | ⟨b, la, lo, e, he⟩ | ⟨b, la, lo, he⟩ <;>
    simp only [he, fetches]
  · intro E table s
    exact env_invoke_world E table s3Event s

/-- C3: `Invoke` returns a nil error for every batch and every behaviour of its
collaborators, after one step for each notification of the batch; on the empty batch it
returns nil without calling any collaborator. -/
theorem invoke_returns_nil {σ : Type} (h : Handler σ) (s3Event : S3Event) (w : σ) :
    (Invoke h s3Event w).err = none ∧
    (Invoke h s3Event w).steps.length = s3Event.Records.length ∧
    (Invoke h ⟨[]⟩ w).err = none ∧
    (Invoke h ⟨[]⟩ w).trace = [] :=
  ⟨rfl, loop_length h s3Event.Records w, rfl, rfl⟩

/-- C2 on `sampleEvent`: the notification whose extraction fails issues no put, the one
whose put fails persists nothing, and the fifth notification is still fetched. -/
theorem invoke_skips_failures_and_continues_witness :
    putCalls
        [Event.getObject "photos" "plain.png" (.ok "bytes of plain.png"),
         Event.extractLatLong "bytes of plain.png"
           (.fail "exif: failed to find exif intro marker"),
         Event.log
           "Geo Extract Error for plain.png: exif: failed to find exif intro marker"] = [] ∧
    persisted
        [Event.getObject "photos" "locked.jpg" (.ok "bytes of locked.jpg"),
         Event.extractLatLong "bytes of locked.jpg" (.ok (40, -74)),
         Event.putItem "Images" ⟨"locked.jpg", "locked.jpg", 40, -74⟩
           (.fail "ProvisionedThroughputExceeded"),
         Event.log "DynamoDB Error: ProvisionedThroughputExceeded"] = [] ∧
    (Invoke (sampleEnv.handler "Images") sampleEvent []).steps.length = 5 :=
  ⟨(invoke_skips_failures_and_continues (sampleEnv.handler "Images") sampleEvent []).1
      ⟨[Event.getObject "photos" "plain.png" (.ok "bytes of plain.png"),
        Event.extractLatLong "bytes of plain.png"
          (.fail "exif: failed to find exif intro marker"),
        Event.log
          "Geo Extract Error for plain.png: exif: failed to find exif intro marker"],
       some "bytes of plain.png"⟩ (by decide) (by decide),
   (invoke_skips_failures_and_continues (sampleEnv.handler "Images") sampleEvent []).2.1
      ⟨[Event.getObject "photos" "locked.jpg" (.ok "bytes of locked.jpg"),
        Event.extractLatLong "bytes of locked.jpg" (.ok (40, -74)),
        Event.putItem "Images" ⟨"locked.jpg", "locked.jpg", 40, -74⟩
          (.fail "ProvisionedThroughputExceeded"),
        Event.log "DynamoDB Error: ProvisionedThroughputExceeded"],
       some "bytes of locked.jpg"⟩ (by decide) (by decide),
   (invoke_skips_failures_and_continues (sampleEnv.handler "Images") sampleEvent []).2.2.1⟩

/-! ## C8, C9: when the fetched bodies are closed -/

/-- The bodies fetched in a trace are the bodies whose close the steps deferred. -/
theorem trace_fetchedBodies {σ : Type} (h : Handler σ) (ev : S3Event) (w : σ) :
    fetchedBodies (Invoke h ev w).trace =
      (loop h ev.Records w).2.filterMap (fun s => s.deferred) := by
  have hsteps : ∀ st ∈ (loop h ev.Records w).2,
      closedBodies st.events = [] ∧ fetchedBodies st.events = st.deferred.toList := by
    intro st hst
    obtain ⟨r, w1, _, rfl⟩ := loop_step_mem h ev.Records w st hst
    exact iteration_bodies h r w1
  have hfl := flatten_fetchedBodies (loop h ev.Records w).2 hsteps
  simp only [Invoke, InvokeResult.trace, fetchedBodies_append, fetchedBodies_closes,
    hfl.1, List.append_nil]

/-- The collaborator state when `Invoke` returns: the state at the end of the loop, on
which `Close` has then been called once for each fetched body, the last fetched
first. -/
theorem invoke_world_closes {σ : Type} (h : Handler σ) (ev : S3Event) (w : σ) :
    (Invoke h ev w).world =
      (fetchedBodies (Invoke h ev w).trace).reverse.foldl
        (fun w1 body => h.S3Client.BodyClose w1 body) (loop h ev.Records w).1 := by
  rw [trace_fetchedBodies]
  rfl

theorem recorder_iteration_fst (E : Env) (table : String) (r : S3EventRecord)
    (s : List Body) :
    (iteration (E.closeRecorder table) r s).1 = s := by
  cases hf : E.fetch r.S3.Bucket.Name r.S3.Object.URLDecodedKey with
  | fail e => simp [iteration, Env.closeRecorder, hf]
  | ok body =>
    cases hp : E.parse body with
    | fail e => simp [iteration, Env.closeRecorder, hf, hp]
    | ok p =>
      obtain ⟨lat, long⟩ := p
      cases hr : E.reject table ⟨r.S3.Object.URLDecodedKey, r.S3.Object.URLDecodedKey,
          lat, long⟩ with
      | some e => simp [iteration, Env.closeRecorder, hf, hp, hr]
      | none => simp [iteration, Env.closeRecorder, hf, hp, hr]

theorem recorder_loop_fst (E : Env) (table : String) (rs : List S3EventRecord)
    (s : List Body) :
    (loop (E.closeRecorder table) rs s).1 = s := by
  induction rs generalizing s with
  | nil => rfl
  | cons r rs ih =>
    have h1 : (loop (E.closeRecorder table) (r :: rs) s).1 =
        (loop (E.closeRecorder table) rs (iteration (E.closeRecorder table) r s).1).1 := rfl
    rw [h1, ih, recorder_iteration_fst]

theorem foldl_record (xs acc : List Body) :
    xs.foldl (fun w1 body => body :: w1) acc = xs.reverse ++ acc := by
  induction xs generalizing acc with
  | nil => rfl
  | cons x xs ih => simp [List.foldl_cons, ih]

/-- C8: when `Invoke` returns, the `Close` of the port has been called exactly once on
each body that a successful `GetObject` returned, and on nothing else: the collaborator
state at return is the state at the end of the loop with `BodyClose` applied to the
fetched bodies, the last fetched first, and over a port that records its `Close` calls
the bodies recorded from an empty record are exactly the fetched bodies.  In the trace
the bodies closed are the bodies fetched, in reverse order, each as often as it was
fetched; an iteration closes nothing itself and defers the close of the body it fetched
on each of its exits after the fetch (extraction failure, store failure, successful
put), and defers nothing when the fetch failed. -/
theorem invoke_closes_each_fetched_body_once {σ : Type} (h : Handler σ)
    (s3Event : S3Event) (w : σ) :
    (Invoke h s3Event w).world =
      (fetchedBodies (Invoke h s3Event w).trace).reverse.foldl
        (fun w1 body => h.S3Client.BodyClose w1 body) (loop h s3Event.Records w).1 ∧
    (∀ (E : Env) (table : String),
      (Invoke (E.closeRecorder table) s3Event []).world =
        fetchedBodies (Invoke (E.closeRecorder table) s3Event []).trace) ∧
    closedBodies (Invoke h s3Event w).trace =
      (fetchedBodies (Invoke h s3Event w).trace).reverse ∧
    (∀ body : Body, (closedBodies (Invoke h s3Event w).trace).count body =
      (fetchedBodies (Invoke h s3Event w).trace).count body) ∧
    (∀ st ∈ (Invoke h s3Event w).steps,
      closedBodies st.events = [] ∧ fetchedBodies st.events = st.deferred.toList) := by
  have hsteps : ∀ st ∈ (loop h s3Event.Records w).2,
      closedBodies st.events = [] ∧ fetchedBodies st.events = st.deferred.toList := by
    intro st hst
    obtain ⟨r, w1, _, rfl⟩ := loop_step_mem h s3Event.Records w st hst
    exact iteration_bodies h r w1
  have hfl := flatten_fetchedBodies (loop h s3Event.Records w).2 hsteps
  have heq : closedBodies (Invoke h s3Event w).trace =
      (fetchedBodies (Invoke h s3Event w).trace).reverse := by
    simp only [Invoke, InvokeResult.trace, closedBodies_append, fetchedBodies_append,
      closedBodies_closes, fetchedBodies_closes, hfl.1, hfl.2, deferredCalls,
      List.append_nil, List.nil_append]
  refine ⟨invoke_world_closes h s3Event w, ?_, heq, ?_, hsteps⟩
  · intro E table
    rw [invoke_world_closes, recorder_loop_fst]
    have hrec : ∀ (xs acc : List Body),
        xs.foldl (fun w1 body => (E.closeRecorder table).S3Client.BodyClose w1 body) acc =
          xs.reverse ++ acc := fun xs acc => foldl_record xs acc
    rw [hrec, List.reverse_reverse, List.append_nil]
  · intro body
    rw [heq, List.count_reverse]

/-- The `Close` calls recorded at the port on `sampleEvent`: the four bodies fetched,
each once; the notification whose fetch failed has none. -/
theorem invoke_recorded_closes_sample :
    (Invoke (sampleEnv.closeRecorder "Images") sampleEvent []).world =
      ["bytes of a.jpg", "bytes of plain.png", "bytes of locked.jpg", "bytes of c.jpg"] := by
  decide

/-- C9, the code on a batch of two notifications that both succeed: the `defer` sits
inside the loop, so both closes run only when `Invoke` returns, and the body of `a.jpg`
is still open when `GetObject` is called for `c.jpg` (one body open at the second
fetch), where the claim has none open. -/
theorem invoke_keeps_bodies_open_until_return :
    (Invoke (sampleEnv.handler "Images")
        ⟨[notification "photos" "a.jpg", notification "photos" "c.jpg"]⟩ []).trace =
      [Event.getObject "photos" "a.jpg" (.ok "bytes of a.jpg"),
       Event.extractLatLong "bytes of a.jpg" (.ok (40, -74)),
       Event.putItem "Images" ⟨"a.jpg", "a.jpg", 40, -74⟩ (.ok ()),
       Event.getObject "photos" "c.jpg" (.ok "bytes of c.jpg"),
       Event.extractLatLong "bytes of c.jpg" (.ok (40, -74)),
       Event.putItem "Images" ⟨"c.jpg", "c.jpg", 40, -74⟩ (.ok ()),
       Event.close "bytes of c.jpg",
       Event.close "bytes of a.jpg"] ∧
    openAtFetch (Invoke (sampleEnv.handler "Images")
        ⟨[notification "photos" "a.jpg", notification "photos" "c.jpg"]⟩ []).trace 0 =
      [0, 1] := by
  constructor <;> decide

/-! ## C7: the diagnostics -/

/-- C7, the code on three single-notification batches: a failed fetch logs one text,
`S3 Get Error: NoSuchKey`, which does not contain the key `missing.jpg`; a failed put
logs one text, `DynamoDB Error: ...`, which does not contain the key `locked.jpg`; only
the extraction failure logs a text with the key in it. -/
theorem invoke_logs_of_each_failure :
    logs (Invoke (sampleEnv.handler "Images")
        ⟨[notification "photos" "missing.jpg"]⟩ []).trace = ["S3 Get Error: NoSuchKey"] ∧
    mentions "S3 Get Error: NoSuchKey" "missing.jpg" = false ∧
    logs (Invoke (sampleEnv.handler "Images")
        ⟨[notification "photos" "locked.jpg"]⟩ []).trace =
      ["DynamoDB Error: ProvisionedThroughputExceeded"] ∧
    mentions "DynamoDB Error: ProvisionedThroughputExceeded" "locked.jpg" = false ∧
    logs (Invoke (sampleEnv.handler "Images")
        ⟨[notification "photos" "plain.png"]⟩ []).trace =
      ["Geo Extract Error for plain.png: exif: failed to find exif intro marker"] ∧
    mentions "Geo Extract Error for plain.png: exif: failed to find exif intro marker"
      "plain.png" = true := by
  refine ⟨by decide, by decide, by decide, by decide, by decide, by decide⟩

/-! ## C6: coordinates -/

theorem putItems_append (xs ys : List Event) :
    putItems (xs ++ ys) = putItems xs ++ putItems ys := by
  simp [putItems, putCalls_append]

/-- A successful extraction event of an iteration is a result of `ExtractLatLong`. -/
theorem iteration_extracted_sound {σ : Type} (h : Handler σ) (r : S3EventRecord) (w : σ)
    (p : Coord × Coord) (hp : p ∈ extracted (iteration h r w).2.events) :
    ∃ w0 body w1, h.GeoParser.ExtractLatLong w0 body = (w1, .ok p) := by
  simp only [iteration] at hp
  split at hp
  · simp [extracted] at hp
  · split at hp
    · simp [extracted] at hp
    · rename_i heq
      split at hp <;>
      · simp [extracted] at hp
        exact ⟨_, _, _, hp ▸ heq⟩

theorem flatten_extracted (steps : List Step)
    (hs : ∀ st ∈ steps,
      (putItems st.events).map (fun it => (it.latitude, it.longitude)) =
        extracted st.events) :
    (putItems (steps.map (fun s => s.events)).flatten).map
        (fun it => (it.latitude, it.longitude)) =
      extracted (steps.map (fun s => s.events)).flatten := by
  induction steps with
  | nil => rfl
  | cons st rest ih =>
    have h3 : (List.map (fun s => s.events) (st :: rest)).flatten =
        st.events ++ (rest.map (fun s => s.events)).flatten := by simp
    rw [h3, putItems_append, extracted_append, List.map_append,
      hs st (List.mem_cons_self _ _), ih (fun x hx => hs x (List.mem_cons_of_mem _ hx))]

theorem flatten_extracted_mem (steps : List Step) (p : Coord × Coord)
    (hp : p ∈ extracted (steps.map (fun s => s.events)).flatten) :
    ∃ st ∈ steps, p ∈ extracted st.events := by
  induction steps with
  | nil => simp [extracted] at hp
  | cons st rest ih =>
    have h3 : (List.map (fun s => s.events) (st :: rest)).flatten =
        st.events ++ (rest.map (fun s => s.events)).flatten := by simp
    rw [h3, extracted_append, List.mem_append] at hp
    rcases hp with hp | hp
    · exact ⟨st, List.mem_cons_self _ _, hp⟩
    · obtain ⟨x, hx, hxp⟩ := ih hp
      exact ⟨x, List.mem_cons_of_mem _ hx, hxp⟩

/-- C6 as stated fails: with a parser that returns `(1000, 500)` without error, `Invoke`
puts a record with latitude `1000` and longitude `500`, outside both ranges. -/
theorem invoke_puts_out_of_range_pair :
    putItems (Invoke (offRangeEnv.handler "Images")
        ⟨[notification "photos" "a.jpg"]⟩ []).trace =
      [⟨"a.jpg", "a.jpg", 1000, 500⟩] ∧
    ¬ inRange 1000 500 := by
  constructor <;> decide

/-- C6, amended: `Invoke` checks no range.  The coordinate pairs of the records it puts
are exactly the pairs that `ExtractLatLong` returned without error, in order and
unchanged; so every record put lies in [-90, 90] x [-180, 180] whenever every pair the
`GeoParser` returns without error does. -/
theorem invoke_puts_the_extracted_pairs {σ : Type} (h : Handler σ) (s3Event : S3Event)
    (w : σ) :
    (putItems (Invoke h s3Event w).trace).map (fun it => (it.latitude, it.longitude)) =
      extracted (Invoke h s3Event w).trace ∧
    ((∀ (w0 : σ) (body : Body) (w1 : σ) (lat long : Coord),
        h.GeoParser.ExtractLatLong w0 body = (w1, .ok (lat, long)) → inRange lat long) →
      ∀ it ∈ putItems (Invoke h s3Event w).trace, inRange it.latitude it.longitude) := by
  have hsteps : ∀ st ∈ (loop h s3Event.Records w).2,
      (putItems st.events).map (fun it => (it.latitude, it.longitude)) =
        extracted st.events := by
    intro st hst
    obtain ⟨r, w1, _, rfl⟩ := loop_step_mem h s3Event.Records w st hst
    exact iteration_extracted h r w1
  have htr : (putItems (Invoke h s3Event w).trace).map
      (fun it => (it.latitude, it.longitude)) = extracted (Invoke h s3Event w).trace := by
    simp only [Invoke, InvokeResult.trace, putItems_append, extracted_append,
      extracted_closes, List.map_append, List.append_nil]
    rw [flatten_extracted _ hsteps]
    simp [putItems, putCalls_closes]
  refine ⟨htr, ?_⟩
  intro hpar it hit
  have hmem : (it.latitude, it.longitude) ∈ extracted (Invoke h s3Event w).trace := by
    rw [← htr]
    exact List.mem_map_of_mem _ hit
  simp only [Invoke, InvokeResult.trace, extracted_append, extracted_closes,
    List.append_nil] at hmem
  obtain ⟨st, hst, hp⟩ := flatten_extracted_mem _ _ hmem
  obtain ⟨r, w1, _, rfl⟩ := loop_step_mem h s3Event.Records w st hst
  obtain ⟨w0, body, w2, hcall⟩ := iteration_extracted_sound h r w1 _ hp
  exact hpar w0 body w2 _ _ hcall

/-- C6, amended, at the event and doubles of `TestHandler_Invoke`: the parser returns
only `(40.7128, -74.0060)`, and the record put lies in range. -/
theorem invoke_puts_the_extracted_pairs_witness :
    inRange (mkRat 50891 1250) (mkRat (-37003) 500) :=
  (invoke_puts_the_extracted_pairs (testEnv.handler "TestTable") testEvent []).2
    (fun _ _ _ lat long hcall => by
      have h1 : (mkRat 50891 1250, mkRat (-37003) 500) = (lat, long) :=
        Result.ok.inj (congrArg Prod.snd hcall)
      cases h1
      decide)
    ⟨"photo.jpg", "photo.jpg", mkRat 50891 1250, mkRat (-37003) 500⟩ (by decide)

/-! ## C4, C5: batches over a record store -/

theorem upsert_upsert (table : String) (item : Item) (s : Store) :
    upsert table item (upsert table item s) = upsert table item s := by
  simp [upsert, List.filter_append, List.filter_filter]

theorem lookup_upsert (table : String) (item : Item) (s : Store) :
    lookup table item.imageId (upsert table item s) = [item] := by
  simp [lookup, upsert, List.filter_append, List.filter_filter]

/-- The store after one iteration over an `Env`. -/
theorem env_iteration_fst (E : Env) (table : String) (r : S3EventRecord) (s : Store) :
    (iteration (E.handler table) r s).1 =
      match E.fetch r.S3.Bucket.Name r.S3.Object.URLDecodedKey with
      | .fail _ => s
      | .ok body =>
        match E.parse body with
        | .fail _ => s
        | .ok (lat, long) =>
          match E.reject table
              ⟨r.S3.Object.URLDecodedKey, r.S3.Object.URLDecodedKey, lat, long⟩ with
          | some _ => s
          | none =>
            upsert table
              ⟨r.S3.Object.URLDecodedKey, r.S3.Object.URLDecodedKey, lat, long⟩ s := by
  cases hf : E.fetch r.S3.Bucket.Name r.S3.Object.URLDecodedKey with
  | fail e => simp [iteration, Env.handler, hf]
  | ok body =>
    cases hp : E.parse body with
    | fail e => simp [iteration, Env.handler, hf, hp]
    | ok p =>
      obtain ⟨lat, long⟩ := p
      cases hr : E.reject table ⟨r.S3.Object.URLDecodedKey, r.S3.Object.URLDecodedKey,
          lat, long⟩ with
      | some e => simp [iteration, Env.handler, hf, hp, hr]
      | none => simp [iteration, Env.handler, hf, hp, hr]

theorem env_invoke_single_world (E : Env) (table : String) (r : S3EventRecord)
    (s : Store) :
    (Invoke (E.handler table) ⟨[r]⟩ s).world = (iteration (E.handler table) r s).1 := by
  simp [Invoke, env_runDeferred, loop]

theorem env_invoke_loop_world (E : Env) (table : String) (ev : S3Event) (s : Store) :
    (Invoke (E.handler table) ev s).world = (loop (E.handler table) ev.Records s).1 := by
  simp [Invoke, env_runDeferred]

theorem trace_putItems {σ : Type} (h : Handler σ) (ev : S3Event) (w : σ) :
    putItems (Invoke h ev w).trace =
      putItems ((loop h ev.Records w).2.map (fun st => st.events)).flatten := by
  simp [Invoke, InvokeResult.trace, putItems, putCalls_append, putCalls_closes]

/-- C4: over collaborators that answer by request and a record store, `Invoke` on
`a ++ b` puts the same sequence of records and leaves the same store contents as
`Invoke` on `a` followed by `Invoke` on `b`.  In a batch of three notifications whose
fetches succeed, where the second fails extraction and the first and third are extracted
and accepted by the store, the records persisted are those of the first and the third,
in that order. -/
theorem invoke_append_is_invoke_then_invoke (E : Env) (table : String)
    (a b : List S3EventRecord) (s : Store) :
    putItems (Invoke (E.handler table) ⟨a ++ b⟩ s).trace =
      putItems (Invoke (E.handler table) ⟨a⟩ s).trace ++
        putItems (Invoke (E.handler table) ⟨b⟩
          (Invoke (E.handler table) ⟨a⟩ s).world).trace ∧
    (Invoke (E.handler table) ⟨a ++ b⟩ s).world =
      (Invoke (E.handler table) ⟨b⟩ (Invoke (E.handler table) ⟨a⟩ s).world).world ∧
    (∀ (n1 n2 n3 : S3EventRecord) (b1 b2 b3 : Body) (lat1 long1 lat3 long3 : Coord)
        (e : Err),
      E.fetch n1.S3.Bucket.Name n1.S3.Object.URLDecodedKey = .ok b1 →
      E.fetch n2.S3.Bucket.Name n2.S3.Object.URLDecodedKey = .ok b2 →
      E.fetch n3.S3.Bucket.Name n3.S3.Object.URLDecodedKey = .ok b3 →
      E.parse b1 = .ok (lat1, long1) →
      E.parse b2 = .fail e →
      E.parse b3 = .ok (lat3, long3) →
      E.reject table
        ⟨n1.S3.Object.URLDecodedKey, n1.S3.Object.URLDecodedKey, lat1, long1⟩ = none →
      E.reject table
        ⟨n3.S3.Object.URLDecodedKey, n3.S3.Object.URLDecodedKey, lat3, long3⟩ = none →
      persisted (Invoke (E.handler table) ⟨[n1, n2, n3]⟩ s).trace =
        [⟨n1.S3.Object.URLDecodedKey, n1.S3.Object.URLDecodedKey, lat1, long1⟩,
         ⟨n3.S3.Object.URLDecodedKey, n3.S3.Object.URLDecodedKey, lat3, long3⟩]) := by
  refine ⟨?_, ?_, ?_⟩
  · rw [trace_putItems, trace_putItems, trace_putItems, env_invoke_loop_world]
    simp only [loop_append, List.map_append, List.flatten_append, putItems_append]
  · rw [env_invoke_loop_world, env_invoke_loop_world, env_invoke_loop_world]
    simp only [loop_append]
  · intro n1 n2 n3 b1 b2 b3 lat1 long1 lat3 long3 e hf1 hf2 hf3 hp1 hp2 hp3 hr1 hr3
    rw [trace_persisted]
    simp [Invoke, loop, iteration, Env.handler, hf1, hf2, hf3, hp1, hp2, hp3, hr1, hr3,
      persisted]

/-- C5: over collaborators that answer by request and a record store with
replace-on-put, running `Invoke` twice on the same single-notification batch leaves the
same store contents as running it once; and when the notification is fetched, extracted
and accepted, the store then holds exactly one record under its key, with the extracted
latitude and longitude. -/
theorem invoke_twice_is_invoke_once (E : Env) (table : String) (n : S3EventRecord)
    (s : Store) :
    (Invoke (E.handler table) ⟨[n]⟩ (Invoke (E.handler table) ⟨[n]⟩ s).world).world =
      (Invoke (E.handler table) ⟨[n]⟩ s).world ∧
    (∀ (body : Body) (lat long : Coord),
      E.fetch n.S3.Bucket.Name n.S3.Object.URLDecodedKey = .ok body →
      E.parse body = .ok (lat, long) →
      E.reject table
        ⟨n.S3.Object.URLDecodedKey, n.S3.Object.URLDecodedKey, lat, long⟩ = none →
      lookup table n.S3.Object.URLDecodedKey
          (Invoke (E.handler table) ⟨[n]⟩ (Invoke (E.handler table) ⟨[n]⟩ s).world).world =
        [⟨n.S3.Object.URLDecodedKey, n.S3.Object.URLDecodedKey, lat, long⟩] ∧
      lookup table n.S3.Object.URLDecodedKey (Invoke (E.handler table) ⟨[n]⟩ s).world =
        [⟨n.S3.Object.URLDecodedKey, n.S3.Object.URLDecodedKey, lat, long⟩]) := by
  have hidem : (Invoke (E.handler table) ⟨[n]⟩
      (Invoke (E.handler table) ⟨[n]⟩ s).world).world =
      (Invoke (E.handler table) ⟨[n]⟩ s).world := by
    rw [env_invoke_single_world, env_invoke_single_world, env_iteration_fst,
      env_iteration_fst]
    cases hf : E.fetch n.S3.Bucket.Name n.S3.Object.URLDecodedKey with
    | fail e => simp only []
    | ok body =>
      cases hp : E.parse body with
      | fail e => simp only [hp]
      | ok p =>
        obtain ⟨lat, long⟩ := p
        cases hr : E.reject table ⟨n.S3.Object.URLDecodedKey, n.S3.Object.URLDecodedKey,
            lat, long⟩ with
        | some e => simp only [hp, hr]
        | none =>
          simp only [hp, hr]
          exact upsert_upsert _ _ _
  refine ⟨hidem, ?_⟩
  intro body lat long hf hp hr
  have hone : lookup table n.S3.Object.URLDecodedKey
      (Invoke (E.handler table) ⟨[n]⟩ s).world =
      [⟨n.S3.Object.URLDecodedKey, n.S3.Object.URLDecodedKey, lat, long⟩] := by
    rw [env_invoke_single_world, env_iteration_fst]
    simp only [hf, hp, hr]
    exact lookup_upsert table
      ⟨n.S3.Object.URLDecodedKey, n.S3.Object.URLDecodedKey, lat, long⟩ s
  exact ⟨by rw [hidem]; exact hone, hone⟩

/-- C4 on three notifications over `sampleEnv`, the second of which carries no geotag:
the records of the first and the third are persisted. -/
theorem invoke_append_is_invoke_then_invoke_witness :
    persisted (Invoke (sampleEnv.handler "Images")
        ⟨[notification "photos" "a.jpg", notification "photos" "plain.png",
          notification "photos" "c.jpg"]⟩ []).trace =
      [⟨"a.jpg", "a.jpg", 40, -74⟩, ⟨"c.jpg", "c.jpg", 40, -74⟩] :=
  (invoke_append_is_invoke_then_invoke sampleEnv "Images" [] [] []).2.2
    (notification "photos" "a.jpg") (notification "photos" "plain.png")
    (notification "photos" "c.jpg")
    "bytes of a.jpg" "bytes of plain.png" "bytes of c.jpg" 40 (-74) 40 (-74)
    "exif: failed to find exif intro marker"
    (by decide) (by decide) (by decide) (by decide) (by decide) (by decide)
    (by decide) (by decide)

/-- C5 at the event and doubles of `TestHandler_Invoke`: after two calls, and after one,
the store holds the one record of `photo.jpg`. -/
theorem invoke_twice_is_invoke_once_witness :
    lookup "TestTable" "photo.jpg"
        (Invoke (testEnv.handler "TestTable") testEvent
          (Invoke (testEnv.handler "TestTable") testEvent []).world).world =
      [⟨"photo.jpg", "photo.jpg", mkRat 50891 1250, mkRat (-37003) 500⟩] ∧
    lookup "TestTable" "photo.jpg" (Invoke (testEnv.handler "TestTable") testEvent []).world =
      [⟨"photo.jpg", "photo.jpg", mkRat 50891 1250, mkRat (-37003) 500⟩] :=
  (invoke_twice_is_invoke_once testEnv "TestTable"
      (notification "test-bucket" "photo.jpg") []).2
    "dummy image bytes" (mkRat 50891 1250) (mkRat (-37003) 500)
    (by decide) (by decide) (by decide)

/-! ## C10: the upload-URL branch -/

/-- C10, the code when the presign call returns no request: both handlers drop the
error with `_` and read `URL` through the nil pointer, so the call panics instead of
returning a response, for a well-formed body and for an empty one alike. -/
theorem upload_url_panics_when_presign_fails :
    Api.handler failingPresignRuntime (uploadRequest tripBody) = .panicked nilDereference ∧
    Web.handler failingPresignRuntime (uploadRequest tripBody) = .panicked nilDereference ∧
    Api.handler failingPresignRuntime (uploadRequest "") = .panicked nilDereference ∧
    Web.handler failingPresignRuntime (uploadRequest "") = .panicked nilDereference := by
  refine ⟨by decide, by decide, by decide, by decide⟩

/-- When the presign call returns a request, the upload-URL branch of both handlers
returns status 200 with a nil error and the key made of the Unix time, a dash and the
decoded filename. -/
theorem upload_url_returns_key (rt : Runtime) (body : String)
    (presigned : PresignedHTTPRequest)
    (hp : (rt.PresignPutObject rt.bucket
      (toString rt.now ++ "-" ++ rt.decodeFilename body)).1 = some presigned) :
    Api.handler rt (uploadRequest body) =
      .returned ⟨200, Api.headers,
        .jsonMap [("key", toString rt.now ++ "-" ++ rt.decodeFilename body),
                  ("uploadUrl", presigned.URL)]⟩ none ∧
    Web.handler rt (uploadRequest body) =
      .returned ⟨200, [("Content-Type", "application/json")],
        .jsonMap [("key", toString rt.now ++ "-" ++ rt.decodeFilename body),
                  ("uploadUrl", presigned.URL)]⟩ none := by
  constructor
  · simp [Api.handler, uploadRequest, Api.jsonResponse, hp]
  · simp [Web.handler, uploadRequest, Web.jsonResponse, hp]

end ImageProcessor
